import Mathlib

/-!
Shallow embedding of the GECL OTA manager (src/gecl-ota-manager.c and
src/include/gecl-ota-manager.h) and verification of its specified properties.

The C module receives an MQTT trigger payload, extracts a firmware URL keyed by
the device MAC address, starts an HTTPS OTA download in a dedicated task, runs a
bounded retry wait loop over an event group, and on the completion path stops
the MQTT client, disconnects WiFi and schedules a delayed reboot.  External
calls (cJSON, esp_https_ota, NVS, timers) are modelled by their observable
results; every control decision of the C code is transcribed faithfully.
-/

namespace GeclOta

/-- A JSON value as observed through cJSON_GetStringValue: a string, or any
non-string value (object, number, bool, null). -/
inductive JVal where
  | str (s : String)
  | nonString
deriving DecidableEq

/-- The inbound MQTT payload as the handler sees it: empty (data_len == 0),
unparsable JSON (cJSON_Parse returns NULL), or a parsed top-level object given
as its field list. -/
inductive Payload where
  | empty
  | malformed
  | parsed (fields : List (String × JVal))
deriving DecidableEq

/-- cJSON_GetObjectItem: the first field whose key equals the requested key. -/
def cJSON_GetObjectItem (fields : List (String × JVal)) (key : String) : Option JVal :=
  match fields with
  | [] => none
  | (k, v) :: rest => if k = key then some v else cJSON_GetObjectItem rest key

/-- cJSON_GetStringValue: the string carried by a string item, NULL otherwise
(including on a NULL item, as in the C call chain at lines 251-253). -/
def cJSON_GetStringValue : Option JVal → Option String
  | some (JVal.str s) => some s
  | _ => none

def MAX_URL_LENGTH : Nat := 512

/-- State of a one-shot FreeRTOS timer handle: the period is fixed when
xTimerCreate runs and xTimerStart only (re)starts the countdown. -/
structure TimerState where
  createdPeriod : Option Nat
  running : Bool
deriving DecidableEq

/-- schedule_reboot (src/gecl-ota-manager.c lines 122-131): create reboot_timer
with the given delay only if it is NULL, then start it.  The period of an
already-created timer is never changed. -/
def schedule_reboot (delay_ms : Nat) (reboot_timer : TimerState) : TimerState :=
  let t :=
    match reboot_timer.createdPeriod with
    | none => { reboot_timer with createdPeriod := some delay_ms }
    | some _ => reboot_timer
  { t with running := true }

/-- schedule_ota_timeout (lines 137-146): same pattern on ota_timeout_timer. -/
def schedule_ota_timeout (timeout_ms : Nat) (ota_timeout_timer : TimerState) : TimerState :=
  let t :=
    match ota_timeout_timer.createdPeriod with
    | none => { ota_timeout_timer with createdPeriod := some timeout_ms }
    | some _ => ota_timeout_timer
  { t with running := true }

/-- Why a FAILED bit was raised.  This tag is ghost information for the proofs:
the event-group bit itself carries no cause. -/
inductive FailCause where
  | timeoutExpiry
  | downloadError
  | incompleteData
  | finalizeError
  | persistenceError
deriving DecidableEq

/-- One event-group arrival observed by the handler's xEventGroupWaitBits:
OTA_COMPLETE_BIT or OTA_FAILED_BIT (tagged with its ghost cause). -/
inductive OtaEvent where
  | completeBit
  | failedBit (cause : FailCause)
deriving DecidableEq

def OtaEvent.isFailed : OtaEvent → Bool
  | OtaEvent.completeBit => false
  | OtaEvent.failedBit _ => true

/-- ota_timeout_callback (lines 112-116): on expiry it runs OTA_FAIL_EXIT,
i.e. it raises OTA_FAILED_BIT, exactly the bit any other attempt failure
raises. -/
def ota_timeout_callback (_xTimer : Unit) : OtaEvent :=
  OtaEvent.failedBit FailCause.timeoutExpiry

/-- One return value of esp_https_ota_perform inside the ota_task loop. -/
inductive PerformStep where
  | inProgress
  | performOk
  | performErr
deriving DecidableEq

/-- The while(1) loop of ota_task (lines 382-404) over the successive returns
of esp_https_ota_perform: in-progress iterations delay, feed the watchdog and
continue; the loop ends with success (some true) or error (some false); an
endless in-progress stream never ends (none). -/
def downloadLoop : List PerformStep → Option Bool
  | [] => none
  | PerformStep.inProgress :: rest => downloadLoop rest
  | PerformStep.performOk :: _ => some true
  | PerformStep.performErr :: _ => some false

inductive TaskOutcome where
  | setsCompleteBit
  | setsFailedBit
  | loops
deriving DecidableEq

/-- Observable result of one ota_task run: which event bit it sets (or that it
never leaves the loop), whether esp_https_ota_finish was invoked, and whether
the NVS timestamp write was attempted. -/
structure OtaTaskRun where
  outcome : TaskOutcome
  finishCalled : Bool
  nvsWriteAttempted : Bool
deriving DecidableEq

/-- ota_task (lines 370-445): run the perform loop; on success check
esp_https_ota_is_complete_data_received; only if complete, call
esp_https_ota_finish; on finish success write the timestamp to NVS, and a
failed NVS write runs OTA_FAIL_EXIT; every failure path sets OTA_FAILED_BIT. -/
def ota_task (performs : List PerformStep) (completeDataReceived finishOk nvsOk : Bool) :
    OtaTaskRun :=
  match downloadLoop performs with
  | none => ⟨TaskOutcome.loops, false, false⟩
  | some false => ⟨TaskOutcome.setsFailedBit, false, false⟩
  | some true =>
    if completeDataReceived then
      if finishOk then
        if nvsOk then ⟨TaskOutcome.setsCompleteBit, true, true⟩
        else ⟨TaskOutcome.setsFailedBit, true, true⟩
      else ⟨TaskOutcome.setsFailedBit, true, false⟩
    else ⟨TaskOutcome.setsFailedBit, false, false⟩

/-- Externally visible actions of ota_handler_task, in program order. -/
inductive Act where
  | createEventGroup
  | otaBegin
  | startOtaTask
  | logRetrying
  | setFailedBit
  | wdtDelete
  | taskDelete
  | mqttStop
  | wifiDisconnect
  | scheduleReboot (delay_ms : Nat)
deriving DecidableEq

def Act.isScheduleReboot : Act → Bool
  | Act.scheduleReboot _ => true
  | _ => false

inductive LoopRes where
  | completed
  | failExit
  | blocked
deriving DecidableEq

/-- The retry bound hard-coded at line 324 of ota_handler_task. -/
def max_retries : Nat := 3

/-- The retry wait loop (lines 326-353): while attempt < m, block on the event
group; OTA_COMPLETE_BIT breaks out; OTA_FAILED_BIT increments attempt, and when
the bound is reached the task runs OTA_FAIL_EXIT (set OTA_FAILED_BIT, delete
the watchdog entry, delete the task) — otherwise it merely logs "Retrying
OTA..." and waits again.  Returns the final attempt count, the emitted actions
and how the loop ended; an exhausted event list means the task is still blocked
in xEventGroupWaitBits (portMAX_DELAY). -/
def retryLoopGo (m : Nat) : Nat → List OtaEvent → Nat × List Act × LoopRes
  | attempt, [] =>
    if attempt < m then (attempt, [], LoopRes.blocked) else (attempt, [], LoopRes.completed)
  | attempt, e :: rest =>
    if attempt < m then
      match e with
      | OtaEvent.completeBit => (attempt, [], LoopRes.completed)
      | OtaEvent.failedBit _ =>
        if attempt + 1 < m then
          let r := retryLoopGo m (attempt + 1) rest
          (r.1, Act.logRetrying :: r.2.1, r.2.2)
        else
          (attempt + 1, [Act.setFailedBit, Act.wdtDelete, Act.taskDelete], LoopRes.failExit)
    else (attempt, [], LoopRes.completed)

inductive HandlerExit where
  | emptyPayload
  | parseError
  | decodeError
  | noPartition
  | eventGroupFail
  | beginFail
  | failedNoTeardown
  | blockedWaiting
  | completeTeardown
deriving DecidableEq

/-- Module-global state touched by the handler: the event group pointer and the
two one-shot timer handles. -/
structure OtaGlobals where
  eventGroupCreated : Bool
  reboot_timer : TimerState
  ota_timeout_timer : TimerState
deriving DecidableEq

/-- Results of the external calls the handler makes, plus the sequence of
event-group arrivals its wait loop observes. -/
structure HandlerEnv where
  updatePartitionFound : Bool
  eventGroupCreateOk : Bool
  otaBeginOk : Bool
  events : List OtaEvent
deriving DecidableEq

/-- Lines 321-364: start ota_task, run the retry wait loop, and only when the
loop broke out on OTA_COMPLETE_BIT (or its guard was false) reach the teardown
lines 356-363: esp_mqtt_client_stop, esp_wifi_disconnect, schedule_reboot
10000, vTaskDelete.  A failExit (OTA_FAIL_EXIT at line 348) deleted the task
inside the loop, so teardown never runs on that path. -/
def handlerAfterBegin (g : OtaGlobals) (preActs : List Act) (env : HandlerEnv) :
    HandlerExit × List Act × OtaGlobals :=
  let acts1 := preActs ++ [Act.otaBegin, Act.startOtaTask]
  let r := retryLoopGo max_retries 0 env.events
  match r.2.2 with
  | LoopRes.failExit => (HandlerExit.failedNoTeardown, acts1 ++ r.2.1, g)
  | LoopRes.blocked => (HandlerExit.blockedWaiting, acts1 ++ r.2.1, g)
  | LoopRes.completed =>
    (HandlerExit.completeTeardown,
      acts1 ++ r.2.1
        ++ [Act.mqttStop, Act.wifiDisconnect, Act.scheduleReboot 10000, Act.taskDelete],
      { g with reboot_timer := schedule_reboot 10000 g.reboot_timer })

/-- Lines 283-321: find the update partition; create the event group only when
the global is NULL (when it already exists the code just logs "Event NOT NULL -
already created?" and continues); esp_https_ota_begin; then start the download
task and enter the wait loop. -/
def handlerSessionPhase (g : OtaGlobals) (_url : String) (env : HandlerEnv) :
    HandlerExit × List Act × OtaGlobals :=
  if env.updatePartitionFound = false then (HandlerExit.noPartition, [], g)
  else if g.eventGroupCreated then
    if env.otaBeginOk = false then (HandlerExit.beginFail, [], g)
    else handlerAfterBegin g [] env
  else if env.eventGroupCreateOk = false then (HandlerExit.eventGroupFail, [], g)
  else
    let g1 := { g with eventGroupCreated := true }
    if env.otaBeginOk = false then (HandlerExit.beginFail, [Act.createEventGroup], g1)
    else handlerAfterBegin g1 [Act.createEventGroup] env

/-- ota_handler_task (lines 211-364): reject an empty payload, a JSON parse
failure, or a payload whose item under this device's MAC address is absent or
not a string (lines 245-258) — all before any session state is touched; on a
string value, truncate it to the URL buffer and proceed to the session phase. -/
def ota_handler_task (g : OtaGlobals) (mac_address : String) (payload : Payload)
    (env : HandlerEnv) : HandlerExit × List Act × OtaGlobals :=
  match payload with
  | Payload.empty => (HandlerExit.emptyPayload, [], g)
  | Payload.malformed => (HandlerExit.parseError, [], g)
  | Payload.parsed fields =>
    match cJSON_GetStringValue (cJSON_GetObjectItem fields mac_address) with
    | none => (HandlerExit.decodeError, [], g)
    | some host_key_value =>
      handlerSessionPhase g (host_key_value.take (MAX_URL_LENGTH - 1)) env

inductive BootReport where
  | baseline
  | noUpdateDetected
  | updateConfirmed
deriving DecidableEq

/-- Modelled from the spec: the body of was_booted_after_ota_update is missing
from src (src/include/gecl-ota-manager.h line 25 only declares it).  BootGuard
logic per spec section 4.4: read the persisted BootRecord; if absent, persist
the current active partition address and report Baseline; if equal to the
current address, report NoUpdateDetected; if different, report UpdateConfirmed
and persist the current address. -/
def was_booted_after_ota_update (boot_record : Option Nat) (active_address : Nat) :
    BootReport × Option Nat :=
  match boot_record with
  | none => (BootReport.baseline, some active_address)
  | some recorded =>
    if recorded = active_address then (BootReport.noUpdateDetected, some recorded)
    else (BootReport.updateConfirmed, some active_address)

/-- A fresh boot state: no event group, no timers created. -/
def freshGlobals : OtaGlobals :=
  ⟨false, ⟨none, false⟩, ⟨none, false⟩⟩

/-- Globals while a session is underway: the event group exists. -/
def busyGlobals : OtaGlobals :=
  ⟨true, ⟨none, false⟩, ⟨none, false⟩⟩

def sampleMac : String := "AA:BB:CC:DD:EE:FF"

def samplePayload : Payload :=
  Payload.parsed [(sampleMac, JVal.str "https://host/fw.bin")]

/-- Environment where everything works and the download task reports success. -/
def sampleEnv : HandlerEnv :=
  ⟨true, true, true, [OtaEvent.completeBit]⟩

/-- Environment where all three attempts report failure. -/
def threeFailEnv : HandlerEnv :=
  ⟨true, true, true,
    [OtaEvent.failedBit FailCause.downloadError,
     OtaEvent.failedBit FailCause.downloadError,
     OtaEvent.failedBit FailCause.downloadError]⟩

/-- Environment for a finalize error on the first attempt and nothing after. -/
def finalizeFailEnv : HandlerEnv :=
  ⟨true, true, true, [OtaEvent.failedBit FailCause.finalizeError]⟩

/-- The teardown action suffix of the completion path (lines 356-363). -/
def teardownActs : List Act :=
  [Act.mqttStop, Act.wifiDisconnect, Act.scheduleReboot 10000, Act.taskDelete]

/-! ## Helper lemmas -/

/-- Every action the retry wait loop emits is one of its four own actions. -/
lemma retryLoopGo_acts (m : Nat) :
    ∀ (events : List OtaEvent) (attempt : Nat) (a : Act),
      a ∈ (retryLoopGo m attempt events).2.1 →
      a = Act.logRetrying ∨ a = Act.setFailedBit ∨ a = Act.wdtDelete ∨ a = Act.taskDelete := by
  intro events
  induction events with
  | nil =>
    intro attempt a ha
    by_cases h : attempt < m <;> simp [retryLoopGo, h] at ha
  | cons e rest ih =>
    intro attempt a ha
    by_cases h : attempt < m
    · cases e with
      | completeBit => simp [retryLoopGo, h] at ha
      | failedBit c =>
        by_cases h2 : attempt + 1 < m
        · simp only [retryLoopGo, if_pos h, if_pos h2, List.mem_cons] at ha
          rcases ha with ha | ha
          · exact Or.inl ha
          · exact ih (attempt + 1) a ha
        · simp only [retryLoopGo, if_pos h, if_neg h2, List.mem_cons,
            List.mem_singleton, List.not_mem_nil] at ha
          rcases ha with ha | ha | ha | ha
          · exact Or.inr (Or.inl ha)
          · exact Or.inr (Or.inr (Or.inl ha))
          · exact Or.inr (Or.inr (Or.inr ha))
          · exact absurd ha (by simp)
    · simp [retryLoopGo, h] at ha

/-- The final attempt count of the wait loop never exceeds the bound. -/
lemma retryLoopGo_le (m : Nat) :
    ∀ (events : List OtaEvent) (attempt : Nat), attempt ≤ m →
      (retryLoopGo m attempt events).1 ≤ m := by
  intro events
  induction events with
  | nil =>
    intro attempt h
    by_cases hlt : attempt < m <;> simp [retryLoopGo, hlt, h]
  | cons e rest ih =>
    intro attempt h
    by_cases hlt : attempt < m
    · cases e with
      | completeBit => simpa [retryLoopGo, hlt] using h
      | failedBit c =>
        by_cases h2 : attempt + 1 < m
        · simpa [retryLoopGo, hlt, h2] using ih (attempt + 1) (le_of_lt h2)
        · simp only [retryLoopGo, if_pos hlt, if_neg h2]
          omega
    · simpa [retryLoopGo, hlt] using h

/-- When the wait loop ends in OTA_FAIL_EXIT, the attempt count is exactly the
bound. -/
lemma retryLoopGo_failExit_attempt (m : Nat) :
    ∀ (events : List OtaEvent) (attempt : Nat),
      (retryLoopGo m attempt events).2.2 = LoopRes.failExit →
      (retryLoopGo m attempt events).1 = m := by
  intro events
  induction events with
  | nil =>
    intro attempt h
    by_cases hlt : attempt < m <;> simp [retryLoopGo, hlt] at h
  | cons e rest ih =>
    intro attempt h
    by_cases hlt : attempt < m
    · cases e with
      | completeBit => simp [retryLoopGo, hlt] at h
      | failedBit c =>
        by_cases h2 : attempt + 1 < m
        · simp only [retryLoopGo, if_pos hlt, if_pos h2] at h ⊢
          exact ih (attempt + 1) h
        · simp only [retryLoopGo, if_pos hlt, if_neg h2]
          omega
    · simp [retryLoopGo, hlt] at h

/-- The wait loop ends in OTA_FAIL_EXIT exactly when the next m - attempt
events exist and are all failure bits. -/
lemma retryLoopGo_failExit_iff (m : Nat) :
    ∀ (events : List OtaEvent) (attempt : Nat),
      ((retryLoopGo m attempt events).2.2 = LoopRes.failExit ↔
        attempt < m ∧ m - attempt ≤ events.length
          ∧ ∀ e ∈ events.take (m - attempt), e.isFailed = true) := by
  intro events
  induction events with
  | nil =>
    intro attempt
    by_cases hlt : attempt < m <;> simp [retryLoopGo, hlt] <;> omega
  | cons e rest ih =>
    intro attempt
    by_cases hlt : attempt < m
    · cases e with
      | completeBit =>
        simp only [retryLoopGo, if_pos hlt]
        constructor
        · intro h; exact absurd h (by simp)
        · rintro ⟨-, hlen, hall⟩
          have hmem : OtaEvent.completeBit ∈ (OtaEvent.completeBit :: rest).take (m - attempt) := by
            cases hma : m - attempt with
            | zero => omega
            | succ k => simp [hma, List.take_succ_cons]
          have := hall _ hmem
          simp [OtaEvent.isFailed] at this
      | failedBit c =>
        have hma : m - attempt = (m - (attempt + 1)) + 1 := by omega
        by_cases h2 : attempt + 1 < m
        · simp only [retryLoopGo, if_pos hlt, if_pos h2]
          rw [ih (attempt + 1)]
          constructor
          · rintro ⟨-, hlen, hall⟩
            refine ⟨hlt, ?_, ?_⟩
            · simp only [List.length_cons]; omega
            · intro x hx
              rw [hma] at hx
              simp only [List.take_succ_cons, List.mem_cons] at hx
              rcases hx with hx | hx
              · subst hx; rfl
              · exact hall x hx
          · rintro ⟨-, hlen, hall⟩
            refine ⟨h2, ?_, ?_⟩
            · simp only [List.length_cons] at hlen; omega
            · intro x hx
              refine hall x ?_
              rw [hma]
              simp only [List.take_succ_cons, List.mem_cons]
              exact Or.inr hx
        · simp only [retryLoopGo, if_pos hlt, if_neg h2]
          constructor
          · intro _
            refine ⟨hlt, ?_, ?_⟩
            · simp only [List.length_cons]; omega
            · intro x hx
              rw [hma] at hx
              have hz : m - (attempt + 1) = 0 := by omega
              rw [hz] at hx
              simp only [List.take_succ_cons, List.take_zero, List.mem_singleton] at hx
              subst hx; rfl
          · intro _; trivial
    · simp only [retryLoopGo, if_neg hlt]
      constructor
      · intro h; exact absurd h (by simp)
      · rintro ⟨h, -⟩; exact absurd h hlt

/-- The wait loop raises OTA_FAILED_BIT at most once. -/
lemma retryLoopGo_setFailed_count (m : Nat) :
    ∀ (events : List OtaEvent) (attempt : Nat),
      ((retryLoopGo m attempt events).2.1.count Act.setFailedBit) ≤ 1 := by
  intro events
  induction events with
  | nil =>
    intro attempt
    by_cases hlt : attempt < m <;> simp [retryLoopGo, hlt]
  | cons e rest ih =>
    intro attempt
    by_cases hlt : attempt < m
    · cases e with
      | completeBit => simp [retryLoopGo, hlt]
      | failedBit c =>
        by_cases h2 : attempt + 1 < m
        · simpa [retryLoopGo, hlt, h2, List.count_cons] using ih (attempt + 1)
        · simp [retryLoopGo, hlt, h2, List.count_cons]
    · simp [retryLoopGo, hlt]

/-- The wait-and-teardown phase: its exit, final globals and the shape of its
trace, with the prefix of earlier actions factored out. -/
lemma handlerAfterBegin_cases (g : OtaGlobals) (pre : List Act) (env : HandlerEnv) :
    ((handlerAfterBegin g pre env).1 = HandlerExit.completeTeardown
      ∧ (handlerAfterBegin g pre env).2.1
          = (pre ++ [Act.otaBegin, Act.startOtaTask]
              ++ (retryLoopGo max_retries 0 env.events).2.1) ++ teardownActs)
    ∨ (((handlerAfterBegin g pre env).1 = HandlerExit.failedNoTeardown
          ∨ (handlerAfterBegin g pre env).1 = HandlerExit.blockedWaiting)
      ∧ (handlerAfterBegin g pre env).2.1
          = pre ++ [Act.otaBegin, Act.startOtaTask]
              ++ (retryLoopGo max_retries 0 env.events).2.1) := by
  unfold handlerAfterBegin teardownActs
  cases h : (retryLoopGo max_retries 0 env.events).2.2 <;> simp [h, List.append_assoc]

/-- Prefix actions pass straight through the wait-and-teardown phase and do not
influence its exit or final globals. -/
lemma handlerAfterBegin_pre (g : OtaGlobals) (pre : List Act) (env : HandlerEnv) :
    (handlerAfterBegin g pre env).1 = (handlerAfterBegin g [] env).1
    ∧ (handlerAfterBegin g pre env).2.1 = pre ++ (handlerAfterBegin g [] env).2.1
    ∧ (handlerAfterBegin g pre env).2.2 = (handlerAfterBegin g [] env).2.2 := by
  unfold handlerAfterBegin
  cases h : (retryLoopGo max_retries 0 env.events).2.2 <;> simp [h, List.append_assoc]

/-- Every run of the handler either exits before starting the download (with an
empty trace or only the event-group creation) or is a run of the
wait-and-teardown phase after at most an event-group creation. -/
lemma ota_handler_decompose (g : OtaGlobals) (mac : String) (p : Payload) (env : HandlerEnv) :
    (((ota_handler_task g mac p env).2.1 = []
        ∨ (ota_handler_task g mac p env).2.1 = [Act.createEventGroup])
      ∧ (ota_handler_task g mac p env).1 ≠ HandlerExit.completeTeardown
      ∧ (ota_handler_task g mac p env).1 ≠ HandlerExit.failedNoTeardown
      ∧ (ota_handler_task g mac p env).1 ≠ HandlerExit.blockedWaiting)
    ∨ ∃ g' pre, (pre = [] ∨ pre = [Act.createEventGroup])
        ∧ ota_handler_task g mac p env = handlerAfterBegin g' pre env := by
  cases p with
  | empty => exact Or.inl (by simp [ota_handler_task])
  | malformed => exact Or.inl (by simp [ota_handler_task])
  | parsed fields =>
    cases hv : cJSON_GetStringValue (cJSON_GetObjectItem fields mac) with
    | none => exact Or.inl (by simp [ota_handler_task, hv])
    | some u =>
      simp only [ota_handler_task, hv]
      unfold handlerSessionPhase
      cases hpart : env.updatePartitionFound with
      | false => exact Or.inl (by simp)
      | true =>
        simp only [Bool.true_eq_false, if_false]
        cases hbusy : g.eventGroupCreated with
        | true =>
          simp only [if_true]
          cases hbeg : env.otaBeginOk with
          | false => exact Or.inl (by simp)
          | true =>
            simp only [Bool.true_eq_false, if_false]
            exact Or.inr ⟨g, [], Or.inl rfl, rfl⟩
        | false =>
          simp only [Bool.false_eq_true, if_false]
          cases hcr : env.eventGroupCreateOk with
          | false => exact Or.inl (by simp)
          | true =>
            simp only [Bool.true_eq_false, if_false]
            cases hbeg : env.otaBeginOk with
            | false => exact Or.inl (by simp)
            | true =>
              simp only [Bool.true_eq_false, if_false]
              exact Or.inr ⟨{ g with eventGroupCreated := true },
                [Act.createEventGroup], Or.inr rfl, rfl⟩

/-! ## Claim theorems -/

/-- Claim C10: after the first call to schedule_reboot (resp.
schedule_ota_timeout), the delay argument of every later call is ignored: the
one-shot timer is created once with the first call's delay, later calls only
restart, so the armed countdown always equals the first delay. -/
theorem schedule_ignores_later_delays (d1 d2 p : Nat) (b : Bool) :
    (schedule_reboot d2 (schedule_reboot d1 ⟨none, b⟩)).createdPeriod = some d1
    ∧ schedule_reboot d2 ⟨some p, b⟩ = ⟨some p, true⟩
    ∧ (schedule_ota_timeout d2 (schedule_ota_timeout d1 ⟨none, b⟩)).createdPeriod = some d1
    ∧ schedule_ota_timeout d2 ⟨some p, b⟩ = ⟨some p, true⟩ :=
  ⟨rfl, rfl, rfl, rfl⟩

/-- Claim C6: BootGuard is idempotent — with no persisted record the first call
reports Baseline and persists the active address; a second call with the same
active address reports NoUpdateDetected and leaves the record unchanged; a call
after the active address changed reports UpdateConfirmed and persists the new
address.  (Spec-modelled: the function body is absent from src.) -/
theorem bootguard_idempotent (a b : Nat) (h : b ≠ a) :
    was_booted_after_ota_update none a = (BootReport.baseline, some a)
    ∧ was_booted_after_ota_update (some a) a = (BootReport.noUpdateDetected, some a)
    ∧ was_booted_after_ota_update (some a) b = (BootReport.updateConfirmed, some b) := by
  refine ⟨rfl, ?_, ?_⟩
  · simp [was_booted_after_ota_update]
  · simp [was_booted_after_ota_update, Ne.symm h]

theorem bootguard_idempotent_witness :
    (1 : Nat) ≠ 0
    ∧ (was_booted_after_ota_update none 0 = (BootReport.baseline, some 0)
      ∧ was_booted_after_ota_update (some 0) 0 = (BootReport.noUpdateDetected, some 0)
      ∧ was_booted_after_ota_update (some 0) 1 = (BootReport.updateConfirmed, some 1)) :=
  ⟨by decide, bootguard_idempotent 0 1 (by decide)⟩

/-- Claim C7: expiry of the logical deadline raises exactly OTA_FAILED_BIT —
the same bit as any other attempt failure — and the retry wait loop behaves
identically on it, whatever the failure cause was. -/
theorem timeout_counted_like_any_failure (m attempt : Nat) (rest : List OtaEvent)
    (c : FailCause) :
    ota_timeout_callback () = OtaEvent.failedBit FailCause.timeoutExpiry
    ∧ (ota_timeout_callback ()).isFailed = true
    ∧ retryLoopGo m attempt (ota_timeout_callback () :: rest)
        = retryLoopGo m attempt (OtaEvent.failedBit c :: rest) :=
  ⟨rfl, rfl, rfl⟩

/-- Claim C5 counterexample: with a successful download, complete data and a
successful finalize, a failed NVS timestamp write makes ota_task run
OTA_FAIL_EXIT — the session ends FAILED, not COMPLETE as the claim states. -/
theorem nvs_write_failure_fails_session :
    ota_task [PerformStep.performOk] true true false
      = ⟨TaskOutcome.setsFailedBit, true, true⟩
    ∧ (ota_task [PerformStep.performOk] true true false).outcome
        ≠ TaskOutcome.setsCompleteBit :=
  ⟨rfl, by decide⟩

/-- Claim C5 amended: after a successful download and finalize, a failure to
write the timestamp to NVS is logged and then the task exits via OTA_FAIL_EXIT,
so the session ends FAILED; only a successful write yields COMPLETE. -/
theorem nvs_failure_alters_outcome (performs : List PerformStep)
    (hdl : downloadLoop performs = some true) :
    (ota_task performs true true false).outcome = TaskOutcome.setsFailedBit
    ∧ (ota_task performs true true true).outcome = TaskOutcome.setsCompleteBit := by
  simp [ota_task, hdl]

theorem nvs_failure_alters_outcome_witness :
    downloadLoop [PerformStep.performOk] = some true
    ∧ ((ota_task [PerformStep.performOk] true true false).outcome = TaskOutcome.setsFailedBit
      ∧ (ota_task [PerformStep.performOk] true true true).outcome
          = TaskOutcome.setsCompleteBit) :=
  ⟨by decide, nvs_failure_alters_outcome [PerformStep.performOk] (by decide)⟩

/-- Claim C8: esp_https_ota_finish is invoked exactly when the perform loop
succeeded and the completeness check is true, and a false completeness check
produces the same run as a download error. -/
theorem completeness_checked_before_finish (performs : List PerformStep) (c f n : Bool) :
    ((ota_task performs c f n).finishCalled = true
      ↔ (downloadLoop performs = some true ∧ c = true))
    ∧ (downloadLoop performs = some true → c = false →
        ota_task performs c f n = ota_task [PerformStep.performErr] c f n) := by
  constructor
  · cases hdl : downloadLoop performs with
    | none => simp [ota_task, hdl]
    | some b => cases b <;> cases c <;> cases f <;> cases n <;> simp [ota_task, hdl]
  · intro hdl hc
    subst hc
    simp [ota_task, hdl, downloadLoop]

theorem completeness_checked_before_finish_witness :
    downloadLoop [PerformStep.performOk] = some true
    ∧ ota_task [PerformStep.performOk] false true true
        = ota_task [PerformStep.performErr] false true true :=
  ⟨by decide,
    (completeness_checked_before_finish [PerformStep.performOk] false true true).2
      (by decide) rfl⟩

/-- Claim C1 counterexample: with the event group already created (a session
underway), the handler does not reject the new trigger — it proceeds through
esp_https_ota_begin, starts a new download task and runs to teardown, so the
submission has side effects and no SessionBusyError path exists. -/
theorem submit_while_busy_has_side_effects :
    (ota_handler_task busyGlobals sampleMac samplePayload sampleEnv).2.1
      = [Act.otaBegin, Act.startOtaTask, Act.mqttStop, Act.wifiDisconnect,
         Act.scheduleReboot 10000, Act.taskDelete]
    ∧ (ota_handler_task busyGlobals sampleMac samplePayload sampleEnv).2.1 ≠ [] :=
  ⟨rfl, by decide⟩

/-- Claim C2 counterexample: when all three attempts fail, the handler exits
through OTA_FAIL_EXIT inside the wait loop — the MQTT client is never stopped,
WiFi is never disconnected and no reboot is scheduled, although FAILED is a
terminal state. -/
theorem failed_exit_skips_teardown :
    (ota_handler_task freshGlobals sampleMac samplePayload threeFailEnv).1
      = HandlerExit.failedNoTeardown
    ∧ Act.mqttStop ∉ (ota_handler_task freshGlobals sampleMac samplePayload threeFailEnv).2.1
    ∧ ((ota_handler_task freshGlobals sampleMac samplePayload threeFailEnv).2.1.all
        fun a => !a.isScheduleReboot) = true := by
  refine ⟨rfl, by decide, by decide⟩

/-- Claim C4: the handler never restarts a download on retry.  ota_task is
created exactly once, before the wait loop; the retry branch only logs
"Retrying OTA..." and waits again.  At the failing input — a FinalizeError on
attempt 1 of 3 — the trace shows one single task start followed by the log, and
the handler then blocks forever instead of re-entering DOWNLOADING. -/
theorem retry_never_restarts_download (g : OtaGlobals) (mac : String) (p : Payload)
    (env : HandlerEnv) :
    (ota_handler_task g mac p env).2.1.count Act.startOtaTask ≤ 1
    ∧ (ota_handler_task freshGlobals sampleMac samplePayload finalizeFailEnv).1
        = HandlerExit.blockedWaiting
    ∧ (ota_handler_task freshGlobals sampleMac samplePayload finalizeFailEnv).2.1
        = [Act.createEventGroup, Act.otaBegin, Act.startOtaTask, Act.logRetrying] := by
  refine ⟨?_, rfl, rfl⟩
  have hloop : ∀ events : List OtaEvent,
      (retryLoopGo max_retries 0 events).2.1.count Act.startOtaTask = 0 := by
    intro events
    rw [List.count_eq_zero]
    intro hmem
    rcases retryLoopGo_acts max_retries events 0 Act.startOtaTask hmem with h | h | h | h <;>
      exact absurd h (by decide)
  rcases ota_handler_decompose g mac p env with ⟨htr | htr, -⟩ | ⟨g', pre, hpre, heq⟩
  · simp [htr]
  · simp [htr]
  · rw [heq]
    rcases handlerAfterBegin_cases g' pre env with ⟨-, htr⟩ | ⟨-, htr⟩ <;>
      rcases hpre with hpre | hpre <;> subst hpre <;>
        simp [htr, teardownActs, List.count_append, List.count_cons, hloop]

/-- Every action in a trace of the form prefix-begin-loop is one of the seven
pre-teardown actions; in particular none of them is an MQTT stop, a WiFi
disconnect or a reboot scheduling. -/
lemma pre_loop_trace_mem (pre : List Act) (events : List OtaEvent)
    (hpre : pre = [] ∨ pre = [Act.createEventGroup]) :
    ∀ a ∈ pre ++ [Act.otaBegin, Act.startOtaTask] ++ (retryLoopGo max_retries 0 events).2.1,
      a ≠ Act.mqttStop ∧ a ≠ Act.wifiDisconnect ∧ a.isScheduleReboot = false := by
  intro a ha
  simp only [List.mem_append] at ha
  have haux : a = Act.createEventGroup ∨ a = Act.otaBegin ∨ a = Act.startOtaTask
      ∨ a = Act.logRetrying ∨ a = Act.setFailedBit ∨ a = Act.wdtDelete
      ∨ a = Act.taskDelete := by
    rcases ha with (ha | ha) | ha
    · rcases hpre with h | h <;> subst h
      · simp at ha
      · simp at ha
        exact Or.inl ha
    · simp only [List.mem_cons, List.mem_singleton, List.not_mem_nil, or_false] at ha
      rcases ha with ha | ha
      · exact Or.inr (Or.inl ha)
      · exact Or.inr (Or.inr (Or.inl ha))
    · rcases retryLoopGo_acts max_retries events 0 a ha with h | h | h | h
      · exact Or.inr (Or.inr (Or.inr (Or.inl h)))
      · exact Or.inr (Or.inr (Or.inr (Or.inr (Or.inl h))))
      · exact Or.inr (Or.inr (Or.inr (Or.inr (Or.inr (Or.inl h)))))
      · exact Or.inr (Or.inr (Or.inr (Or.inr (Or.inr (Or.inr h)))))
  rcases haux with h | h | h | h | h | h | h <;> subst h <;>
    exact ⟨by decide, by decide, by decide⟩

/-- Claim C2 amended: only the COMPLETE outcome runs the teardown path —
esp_mqtt_client_stop, esp_wifi_disconnect, then schedule_reboot — while the
FAILED outcome terminates the handler inside OTA_FAIL_EXIT without stopping the
network session and without scheduling a reboot; a reboot is scheduled only on
the completed-and-torn-down path. -/
theorem teardown_and_reboot_only_on_complete (g : OtaGlobals) (mac : String) (p : Payload)
    (env : HandlerEnv) :
    ((ota_handler_task g mac p env).1 = HandlerExit.completeTeardown →
      ∃ pre, (ota_handler_task g mac p env).2.1 = pre ++ teardownActs)
    ∧ ((ota_handler_task g mac p env).1 = HandlerExit.failedNoTeardown →
      Act.mqttStop ∉ (ota_handler_task g mac p env).2.1
      ∧ Act.wifiDisconnect ∉ (ota_handler_task g mac p env).2.1
      ∧ ((ota_handler_task g mac p env).2.1.all fun a => !a.isScheduleReboot) = true)
    ∧ (∀ a ∈ (ota_handler_task g mac p env).2.1, a.isScheduleReboot = true →
      (ota_handler_task g mac p env).1 = HandlerExit.completeTeardown) := by
  rcases ota_handler_decompose g mac p env with ⟨htr, hc, hf, hb⟩ | ⟨g', pre, hpre, heq⟩
  · refine ⟨fun h => absurd h hc, fun h => absurd h hf, ?_⟩
    intro a ha hsr
    rcases htr with htr | htr <;> rw [htr] at ha
    · simp at ha
    · simp only [List.mem_singleton] at ha
      subst ha
      simp [Act.isScheduleReboot] at hsr
  · rcases handlerAfterBegin_cases g' pre env with ⟨hexit, htr⟩ | ⟨hexit, htr⟩
    · refine ⟨fun _ => ⟨_, by rw [heq, htr]⟩, ?_, ?_⟩
      · intro h
        rw [heq, hexit] at h
        exact absurd h (by decide)
      · intro a _ _
        rw [heq]
        exact hexit
    · refine ⟨?_, ?_, ?_⟩
      · intro h
        rw [heq] at h
        rcases hexit with hexit | hexit <;> exact absurd (hexit.symm.trans h) (by decide)
      · intro _
        have hmem := pre_loop_trace_mem pre env.events hpre
        rw [heq, htr]
        refine ⟨fun hm => (hmem _ hm).1 rfl, fun hm => (hmem _ hm).2.1 rfl, ?_⟩
        rw [List.all_eq_true]
        intro a ha
        simp [(hmem a ha).2.2]
      · intro a ha hsr
        rw [heq, htr] at ha
        have := (pre_loop_trace_mem pre env.events hpre a ha).2.2
        rw [this] at hsr
        exact absurd hsr (by decide)

theorem teardown_and_reboot_only_on_complete_witness :
    (ota_handler_task freshGlobals sampleMac samplePayload sampleEnv).1
        = HandlerExit.completeTeardown
    ∧ ∃ pre, (ota_handler_task freshGlobals sampleMac samplePayload sampleEnv).2.1
        = pre ++ teardownActs :=
  ⟨rfl,
    (teardown_and_reboot_only_on_complete freshGlobals sampleMac samplePayload sampleEnv).1
      rfl⟩

/-- Claim C3: the attempt count of the wait loop never exceeds the retry bound;
the FAILED transition of the session is reached only with the attempt count at
exactly the bound, exactly when the first max_retries observed events are all
failures; and the handler raises the session-level FAILED bit at most once. -/
theorem attempt_count_invariant (events : List OtaEvent) (g : OtaGlobals) (mac : String)
    (p : Payload) (env : HandlerEnv) :
    (retryLoopGo max_retries 0 events).1 ≤ max_retries
    ∧ ((retryLoopGo max_retries 0 events).2.2 = LoopRes.failExit →
        (retryLoopGo max_retries 0 events).1 = max_retries)
    ∧ ((retryLoopGo max_retries 0 events).2.2 = LoopRes.failExit ↔
        max_retries ≤ events.length
          ∧ ∀ e ∈ events.take max_retries, e.isFailed = true)
    ∧ (ota_handler_task g mac p env).2.1.count Act.setFailedBit ≤ 1 := by
  refine ⟨retryLoopGo_le max_retries events 0 (Nat.zero_le _),
    retryLoopGo_failExit_attempt max_retries events 0, ?_, ?_⟩
  · rw [retryLoopGo_failExit_iff max_retries events 0, Nat.sub_zero]
    exact ⟨fun ⟨_, h1, h2⟩ => ⟨h1, h2⟩, fun ⟨h1, h2⟩ => ⟨by decide, h1, h2⟩⟩
  · have hcnt := retryLoopGo_setFailed_count max_retries env.events 0
    rcases ota_handler_decompose g mac p env with ⟨htr | htr, -⟩ | ⟨g', pre, hpre, heq⟩
    · simp [htr]
    · simp [htr]
    · rw [heq]
      rcases handlerAfterBegin_cases g' pre env with ⟨-, htr⟩ | ⟨-, htr⟩ <;>
        rcases hpre with hpre | hpre <;> subst hpre <;>
          simp [htr, teardownActs, List.count_append, List.count_cons] <;> omega

theorem attempt_count_invariant_witness :
    (retryLoopGo max_retries 0 threeFailEnv.events).2.2 = LoopRes.failExit
    ∧ (retryLoopGo max_retries 0 threeFailEnv.events).1 = max_retries :=
  ⟨by decide,
    (attempt_count_invariant threeFailEnv.events freshGlobals sampleMac samplePayload
      threeFailEnv).2.1 (by decide)⟩

/-- Claim C1 amended: a trigger submission while a session is already underway
(the event group exists) is not rejected and no SessionBusyError exists in the
code: the handler proceeds exactly as a fresh submission would, except that it
reuses the existing event group instead of creating one, starting a second
concurrent download attempt with the same side effects. -/
theorem busy_submission_runs_as_fresh (g : OtaGlobals) (mac : String)
    (fields : List (String × JVal)) (env : HandlerEnv) (u : String)
    (hbusy : g.eventGroupCreated = true)
    (hok : env.eventGroupCreateOk = true)
    (hurl : cJSON_GetStringValue (cJSON_GetObjectItem fields mac) = some u)
    (hpart : env.updatePartitionFound = true) :
    (ota_handler_task g mac (Payload.parsed fields) env).1
        = (ota_handler_task { g with eventGroupCreated := false } mac
            (Payload.parsed fields) env).1
    ∧ Act.createEventGroup :: (ota_handler_task g mac (Payload.parsed fields) env).2.1
        = (ota_handler_task { g with eventGroupCreated := false } mac
            (Payload.parsed fields) env).2.1
    ∧ (ota_handler_task g mac (Payload.parsed fields) env).2.2
        = (ota_handler_task { g with eventGroupCreated := false } mac
            (Payload.parsed fields) env).2.2 := by
  obtain ⟨egc, rt, ot⟩ := g
  simp only [OtaGlobals.eventGroupCreated] at hbusy
  subst hbusy
  cases hbeg : env.otaBeginOk with
  | false =>
    simp [ota_handler_task, hurl, handlerSessionPhase, hpart, hok, hbeg]
  | true =>
    have h1 := handlerAfterBegin_pre ⟨true, rt, ot⟩ [Act.createEventGroup] env
    simp only [ota_handler_task, hurl, handlerSessionPhase, hpart, hok, hbeg]
    simp [h1.1, h1.2.1, h1.2.2]

theorem busy_submission_runs_as_fresh_witness :
    busyGlobals.eventGroupCreated = true
    ∧ sampleEnv.eventGroupCreateOk = true
    ∧ cJSON_GetStringValue (cJSON_GetObjectItem
        [(sampleMac, JVal.str "https://host/fw.bin")] sampleMac)
        = some "https://host/fw.bin"
    ∧ sampleEnv.updatePartitionFound = true
    ∧ Act.createEventGroup
        :: (ota_handler_task busyGlobals sampleMac samplePayload sampleEnv).2.1
      = (ota_handler_task { busyGlobals with eventGroupCreated := false }
          sampleMac samplePayload sampleEnv).2.1 :=
  ⟨rfl, rfl, rfl, rfl,
    (busy_submission_runs_as_fresh busyGlobals sampleMac
      [(sampleMac, JVal.str "https://host/fw.bin")] sampleEnv "https://host/fw.bin"
      rfl rfl rfl rfl).2.1⟩

/-- Claim C9: a payload whose item under the device's MAC address is absent or
not a string is rejected before any session state is touched: the handler exits
decodeError with no actions (no event group, no OTA begin, no download task)
and unchanged globals; conversely, any run that reaches esp_https_ota_begin had
a parsed payload with the MAC key bound to a string value. -/
theorem decode_error_no_session (g : OtaGlobals) (mac : String)
    (fields : List (String × JVal)) (env : HandlerEnv)
    (h : cJSON_GetStringValue (cJSON_GetObjectItem fields mac) = none) :
    ota_handler_task g mac (Payload.parsed fields) env = (HandlerExit.decodeError, [], g)
    ∧ (∀ (g' : OtaGlobals) (mac' : String) (p' : Payload) (env' : HandlerEnv),
        Act.otaBegin ∈ (ota_handler_task g' mac' p' env').2.1 →
        ∃ fields' u, p' = Payload.parsed fields'
          ∧ cJSON_GetStringValue (cJSON_GetObjectItem fields' mac') = some u) := by
  constructor
  · simp [ota_handler_task, h]
  · intro g' mac' p' env' hmem
    cases p' with
    | empty => simp [ota_handler_task] at hmem
    | malformed => simp [ota_handler_task] at hmem
    | parsed fields' =>
      cases hv : cJSON_GetStringValue (cJSON_GetObjectItem fields' mac') with
      | none => simp [ota_handler_task, hv] at hmem
      | some u => exact ⟨fields', u, rfl, hv⟩

theorem decode_error_no_session_witness :
    cJSON_GetStringValue (cJSON_GetObjectItem [] sampleMac) = none
    ∧ ota_handler_task freshGlobals sampleMac (Payload.parsed []) sampleEnv
        = (HandlerExit.decodeError, [], freshGlobals) :=
  ⟨rfl, (decode_error_no_session freshGlobals sampleMac [] sampleEnv rfl).1⟩

end GeclOta
